import Mathlib

/-!
Verification development for the watch-sys status aggregation server
(`server/index.js`).  The JavaScript source is shallowly embedded: JS strings
become `String` (all computation routed through `List Char` so the kernel can
evaluate), JS `undefined`-able values become `Option String` with the JS
truthiness convention (`none` and `some ""` are falsy), JS `Set`/`Map` become
insertion-ordered lists, and the single-threaded event loop around the
single-flight refresh becomes an explicit state machine.  The external
`Date.parse` builtin is modelled as an abstract `parse : String → Option Int`
parameter (`none` = `NaN`).
-/

/-! ### JS string primitives -/

/-- JS `String.prototype.toLowerCase` restricted to the ASCII range used by
the classifier terms. -/
def jsToLower (s : String) : String := ⟨s.data.map Char.toLower⟩

/-- `leadsWith n l` is true when `n` is an initial segment of `l`. -/
def leadsWith : List Char → List Char → Bool
  | [], _ => true
  | _ :: _, [] => false
  | a :: as, b :: bs => a == b && leadsWith as bs

/-- `hasSub n l` is true when `n` occurs contiguously inside `l`. -/
def hasSub (needle : List Char) : List Char → Bool
  | [] => needle.isEmpty
  | h :: t => leadsWith needle (h :: t) || hasSub needle t

/-- JS `hay.includes(sub)`. -/
def jsIncludes (hay sub : String) : Bool := hasSub sub.data hay.data

/-- JS string truthiness: the empty string is falsy. -/
def truthyStr (s : String) : Bool := s ≠ ""

/-- JS truthiness of a possibly-`undefined` string. -/
def truthyOpt : Option String → Bool
  | none => false
  | some s => s ≠ ""

/-- JS `a || b` on possibly-`undefined` strings: the left operand when truthy,
otherwise the right operand unchanged. -/
def jsOrOpt (a b : Option String) : Option String :=
  if truthyOpt a then a else b

/-- JS `a || d` where the fallback `d` is a plain string, as in
`item.title || "Untitled incident"`. -/
def pickStr (a : Option String) (d : String) : String :=
  match a with
  | none => d
  | some s => if s = "" then d else s

/-- JS template-literal stringification of a possibly-`undefined` value:
`undefined` renders as the string `"undefined"`. -/
def tmplStr : Option String → String
  | none => "undefined"
  | some s => s

/-! ### Incident classifier (`normalizeStatus`, `detectSeverity`) -/

/-- JS `\w`: ASCII letters, digits and underscore. -/
def wordChar (c : Char) : Bool := c.isAlphanum || c == '_'

/-- The five directional-region alternatives of the severity regex. -/
def dirTokens : List (List Char) :=
  [['e','a','s','t'], ['w','e','s','t'], ['n','o','r','t','h'],
   ['s','o','u','t','h'], ['c','e','n','t','r','a','l']]

/-- JS line terminators, which `.` does not match. -/
def lineTermJS (c : Char) : Bool :=
  c == '\n' || c == '\r' || c.val == 0x2028 || c.val == 0x2029

/-- Matches `.*and.*` against a segment: a literal `and` with no line
terminator on either side of it. -/
def midOk (m : List Char) : Bool :=
  (List.range (m.length + 1)).any (fun k =>
    leadsWith ['a','n','d'] (m.drop k) &&
    !((m.take k).any lineTermJS) && !((m.drop (k + 3)).any lineTermJS))

/-- Word boundary `\b` holding just before index `i`. -/
def boundaryBefore (l : List Char) (i : Nat) : Bool :=
  i == 0 || !(wordChar ((l.take i).getLastD ' '))

/-- Word boundary `\b` holding just after index `k - 1` (i.e. at offset `k`). -/
def boundaryAfter (l : List Char) (k : Nat) : Bool :=
  k == l.length || !(wordChar (l.getD k ' '))

/-- The regex `\b(east|west|north|south|central).*and.*(east|west|north|south|central)\b`
from `detectSeverity`, as an executable existential over match positions. -/
def regionPairMatch (l : List Char) : Bool :=
  (List.range (l.length + 1)).any (fun i =>
    boundaryBefore l i && dirTokens.any (fun d =>
      leadsWith d (l.drop i) &&
      (List.range (l.length + 1)).any (fun j =>
        decide (i + d.length ≤ j) && dirTokens.any (fun d2 =>
          leadsWith d2 (l.drop j) && boundaryAfter l (j + d2.length) &&
          midOk ((l.drop (i + d.length)).take (j - (i + d.length)))))))

/-- The concatenated lowered text `` `${title} ${content}`.toLowerCase() ``. -/
def classifierText (title content : String) : String :=
  jsToLower (title ++ " " ++ content)

/-- The resolved-family disjunction of `normalizeStatus`. -/
def statusResolvedHit (text : String) : Bool :=
  jsIncludes text "resolved" || jsIncludes text "mitigated" ||
  jsIncludes text "restored" || jsIncludes text "stabilized" ||
  jsIncludes text "recovering" || jsIncludes text "recovery complete"

/-- The degraded-family disjunction of `normalizeStatus`. -/
def statusDegradedHit (text : String) : Bool :=
  jsIncludes text "degrad" || jsIncludes text "degradation"

/-- The outage/incident-family disjunction of `normalizeStatus`. -/
def statusIncidentHit (text : String) : Bool :=
  jsIncludes text "outage" || jsIncludes text "incident"

/-- `normalizeStatus` from `server/index.js`. -/
def normalizeStatus (title content : String) : String :=
  let text := classifierText title content
  if statusResolvedHit text then "resolved"
  else if jsIncludes text "investigating" then "investigating"
  else if jsIncludes text "maintenance" then "maintenance"
  else if statusDegradedHit text then "degraded"
  else if statusIncidentHit text then "incident"
  else "info"

/-- The critical-severity disjunction of `detectSeverity`. -/
def sevCriticalHit (text : String) : Bool :=
  jsIncludes text "outage" || jsIncludes text "unavailable" ||
    jsIncludes text "complete failure"

/-- The high-severity disjunction of `detectSeverity`. -/
def highTerms (text : String) : Bool :=
  jsIncludes text "failure" || jsIncludes text "unable" ||
  jsIncludes text "major" || jsIncludes text "multiple regions" ||
  jsIncludes text "dependent service" ||
  (jsIncludes text "region" && jsIncludes text "impacted") ||
  regionPairMatch text.data

/-- The medium-severity disjunction of `detectSeverity`. -/
def sevMediumHit (text : String) : Bool :=
  jsIncludes text "degraded" || jsIncludes text "intermittent" ||
    jsIncludes text "delays" || jsIncludes text "elevated latency"

/-- `detectSeverity` from `server/index.js`. -/
def detectSeverity (title content : String) : String :=
  let text := classifierText title content
  if sevCriticalHit text then "critical"
  else if highTerms text then "high"
  else if sevMediumHit text then "medium"
  else "low"

/-- The classifier pair `(normalizeStatus, detectSeverity)`. -/
def classify (title content : String) : String × String :=
  (normalizeStatus title content, detectSeverity title content)

/-- `getSeverityPriority` from `server/index.js` (`?? 999` default). -/
def getSeverityPriority (severity : String) : Int :=
  if severity = "critical" then 0
  else if severity = "high" then 1
  else if severity = "medium" then 2
  else if severity = "low" then 3
  else 999

/-! ### Data model -/

/-- One entry of the `FEEDS` source registry. -/
structure Feed where
  id : String
  provider : String
  name : String
  url : String
  deriving DecidableEq, Repr

/-- A raw parsed feed item; each field may be `undefined`. -/
structure RawItem where
  guid : Option String := none
  link : Option String := none
  pubDate : Option String := none
  isoDate : Option String := none
  title : Option String := none
  contentSnippet : Option String := none
  content : Option String := none
  deriving DecidableEq, Repr

/-- A classified incident, the output shape of `mapItem`. -/
structure Incident where
  id : String
  provider : String
  source : String
  title : String
  summary : String
  status : String
  severity : String
  link : Option String
  publishedAt : Option String
  deriving DecidableEq, Repr

/-- A per-source fetch failure entry of `snapshot.errors`. -/
structure FeedError where
  provider : String
  source : String
  message : String
  deriving DecidableEq, Repr

/-- One `providers` entry of a snapshot. -/
structure ProviderGroup where
  provider : String
  incidents : List Incident
  deriving DecidableEq, Repr

/-- The cache snapshot. -/
structure Snapshot where
  updatedAt : Int
  providers : List ProviderGroup
  errors : List FeedError
  deriving DecidableEq, Repr

/-- `mapItem` from `server/index.js`. -/
def mapItem (item : RawItem) (feed : Feed) : Incident :=
  let summary := pickStr (jsOrOpt item.contentSnippet item.content) ""
  let status := normalizeStatus (item.title.getD "") summary
  let severity := detectSeverity (item.title.getD "") summary
  { id := pickStr item.guid (pickStr item.link
      (feed.id ++ "-" ++ tmplStr (jsOrOpt item.pubDate (jsOrOpt item.isoDate item.title))))
    provider := feed.provider
    source := feed.name
    title := pickStr item.title "Untitled incident"
    summary := summary
    status := status
    severity := severity
    link := item.link
    publishedAt :=
      if truthyOpt item.isoDate then item.isoDate
      else if truthyOpt item.pubDate then item.pubDate
      else none }

/-- `flattenIncidents` from `server/index.js`. -/
def flattenIncidents (snapshot : Snapshot) : List Incident :=
  snapshot.providers.flatMap (fun p => p.incidents)

/-! ### Dedup ledger (`sentIncidentIds`, `rememberIncident`) -/

/-- `MAX_SENT_IDS` from `server/index.js`. -/
def MAX_SENT_IDS : Nat := 500

/-- `rememberIncident` from `server/index.js`.  The JS `Set` is modelled as an
insertion-ordered duplicate-free list; `add` keeps the original position of an
already-present element, and the destructured `[first]` is the head. -/
def rememberIncident (ledger : List String) (id : String) : List String :=
  if id = "" then ledger
  else
    let l1 := if ledger.contains id then ledger else ledger ++ [id]
    if MAX_SENT_IDS < l1.length then l1.tail else l1

/-! ### Webhook change notifier (`notifyOnNewIncidents`) -/

/-- `buildIncidentLines` from `server/index.js`. -/
def buildIncidentLines (incidents : List Incident) : String :=
  String.intercalate "\n" (incidents.map (fun incident =>
    "• " ++ incident.provider ++ ": " ++ incident.title ++ " (" ++
      incident.status ++ ") " ++ incident.link.getD ""))

/-- The `newIncidents` filter of `notifyOnNewIncidents`: keep items whose id is
truthy, absent from the previous snapshot's flattened id set, and absent from
the dedup ledger. -/
def webhookNewIncidents (prevCache nextCache : Snapshot) (ledger : List String) :
    List Incident :=
  let previousIds := (flattenIncidents prevCache).map (fun item => item.id)
  (flattenIncidents nextCache).filter (fun item =>
    truthyStr item.id && !(previousIds.contains item.id) && !(ledger.contains item.id))

/-- The ledger after `newIncidents.forEach((incident) => rememberIncident(incident.id))`. -/
def webhookLedgerAfter (prevCache nextCache : Snapshot) (ledger : List String) :
    List String :=
  (webhookNewIncidents prevCache nextCache ledger).foldl
    (fun acc incident => rememberIncident acc incident.id) ledger

/-- Observable actions of one `notifyOnNewIncidents` run, in program order. -/
inductive WebhookAct where
  | addLedger (id : String)
  | deliver (target : String) (body : String)
  deriving DecidableEq, Repr

/-- Whether a webhook action is a delivery attempt. -/
def WebhookAct.isDeliver : WebhookAct → Bool
  | .deliver _ _ => true
  | _ => false

/-- The action trace of `notifyOnNewIncidents`: nothing when no new incidents;
otherwise all ledger insertions, then one POST per configured webhook target
carrying the summary of the first five new incidents. -/
def webhookTrace (prevCache nextCache : Snapshot) (ledger : List String)
    (discordUrl teamsUrl : String) : List WebhookAct :=
  let newIncidents := webhookNewIncidents prevCache nextCache ledger
  if newIncidents.isEmpty then []
  else
    let summary := buildIncidentLines (newIncidents.take 5)
    newIncidents.map (fun incident => WebhookAct.addLedger incident.id) ++
      ((if truthyStr discordUrl then
          [WebhookAct.deliver "discord" ("New incident updates:\n" ++ summary)] else []) ++
       (if truthyStr teamsUrl then
          [WebhookAct.deliver "teams" ("New incident updates:\n" ++ summary)] else []))

/-! ### Email change notifier (`notifyOnNewIncidentsByEmail`) -/

/-- Lookup in the `previousMap` built by the email notifier: a JS `Map` filled
by `set` for every truthy-id incident of the previous snapshot, so `get`
returns the last inserted incident with the given id. -/
def previousMapGet (prevCache : Snapshot) (id : String) : Option Incident :=
  (((flattenIncidents prevCache).filter (fun incident => truthyStr incident.id)).reverse).find?
    (fun incident => incident.id == id)

/-- The classification loop of `notifyOnNewIncidentsByEmail`: returns the
`newIncidents` list and the `statusChanges` list (incident paired with its
`previousStatus`), in snapshot order. -/
def emailStep (prevCache : Snapshot) (ledger : List String)
    (acc : List Incident × List (Incident × String)) (incident : Incident) :
    List Incident × List (Incident × String) :=
  if incident.id = "" then acc
  else
    match previousMapGet prevCache incident.id with
    | none =>
        if ledger.contains incident.id then acc
        else (acc.1 ++ [incident], acc.2)
    | some prev =>
        if prev.status ≠ incident.status then (acc.1, acc.2 ++ [(incident, prev.status)])
        else acc

/-- The classification loop of `notifyOnNewIncidentsByEmail` (see `emailStep`). -/
def emailDiff (prevCache nextCache : Snapshot) (ledger : List String) :
    List Incident × List (Incident × String) :=
  (flattenIncidents nextCache).foldl (emailStep prevCache ledger) ([], [])

/-- One rendered `Status Changes` line: `previousStatus → newStatus`. -/
def emailChangeLine (p : Incident × String) : String :=
  "• " ++ p.1.provider ++ ": " ++ p.1.title ++ " (" ++ p.2 ++ " → " ++
    p.1.status ++ ") " ++ p.1.link.getD ""

/-- The rendered new-incident entries of the digest body (capped by `slice(0, 5)`). -/
def emailRenderedNew (newIncidents : List Incident) : List Incident :=
  newIncidents.take 5

/-- The rendered status-change entries of the digest body (capped by `slice(0, 5)`). -/
def emailRenderedChanges (statusChanges : List (Incident × String)) :
    List (Incident × String) :=
  statusChanges.take 5

/-- The digest body assembled by `notifyOnNewIncidentsByEmail` (before `trim`). -/
def emailBody (newIncidents : List Incident) (statusChanges : List (Incident × String)) :
    String :=
  (if newIncidents.length ≠ 0 then
      "New Incidents:\n" ++ buildIncidentLines (emailRenderedNew newIncidents) ++ "\n\n"
    else "") ++
  (if statusChanges.length ≠ 0 then
      "Status Changes:\n" ++
        String.intercalate "\n" ((emailRenderedChanges statusChanges).map emailChangeLine)
    else "")

/-! ### Merge step of `refreshCache` -/

/-- The outcome of one source's fetch+parse inside `Promise.allSettled`:
either the raw items, or the rejection reason's optional `message`. -/
abbrev FetchOutcome := Except (Option String) (List RawItem)

/-- Appending into the insertion-ordered `providerMap` (a JS `Map`): creates an
empty entry for an unseen provider, then pushes the items. -/
def insertAppend (pm : List (String × List Incident)) (k : String)
    (v : List Incident) : List (String × List Incident) :=
  match pm with
  | [] => [(k, v)]
  | (k0, v0) :: rest =>
      if k0 == k then (k0, v0 ++ v) :: rest else (k0, v0) :: insertAppend rest k v

/-- The `results.forEach` partition of `refreshCache`: fulfilled sources append
their mapped incidents into the provider map, rejected sources append one
error entry with the defaulted message. -/
def collectStep (acc : List (String × List Incident) × List FeedError)
    (fr : Feed × FetchOutcome) :
    List (String × List Incident) × List FeedError :=
  match fr.2 with
  | Except.ok raws =>
      (insertAppend acc.1 fr.1.provider (raws.map (fun item => mapItem item fr.1)), acc.2)
  | Except.error msg =>
      (acc.1, acc.2 ++ [{ provider := fr.1.provider, source := fr.1.name,
                          message := pickStr msg "Failed to load feed" }])

/-- The `results.forEach` partition of `refreshCache` (see `collectStep`). -/
def collectResults (rs : List (Feed × FetchOutcome)) :
    List (String × List Incident) × List FeedError :=
  rs.foldl collectStep ([], [])

/-- Specification-side description used to state exactness: the incidents of
all successfully fetched sources of provider `p`, in source iteration order. -/
def successItems (rs : List (Feed × FetchOutcome)) (p : String) : List Incident :=
  rs.flatMap (fun fr =>
    match fr.2 with
    | Except.ok raws => if fr.1.provider == p then raws.map (fun item => mapItem item fr.1) else []
    | Except.error _ => [])

/-- Whether some source of provider `p` fetched successfully. -/
def anySuccess (rs : List (Feed × FetchOutcome)) (p : String) : Bool :=
  rs.any (fun fr => fr.1.provider == p && (match fr.2 with
    | Except.ok _ => true
    | Except.error _ => false))

/-! ### Per-provider sort of `refreshCache` -/

/-- The comparator operand `a.publishedAt ? Date.parse(a.publishedAt) : 0`;
`parse` models the external `Date.parse` with `none` for `NaN`. -/
def timeOf (parse : String → Option Int) (incident : Incident) : Option Int :=
  match incident.publishedAt with
  | none => some 0
  | some s => if s = "" then some 0 else parse s

/-- The comparator value of the `items.sort` callback (`none` = `NaN`): the
severity-priority difference, else the publish-time difference reversed. -/
def sortCmpVal (parse : String → Option Int) (a b : Incident) : Option Int :=
  let aSeverity := getSeverityPriority a.severity
  let bSeverity := getSeverityPriority b.severity
  if aSeverity ≠ bSeverity then some (aSeverity - bSeverity)
  else
    match timeOf parse a, timeOf parse b with
    | some aTime, some bTime => some (bTime - aTime)
    | _, _ => none

/-- The ordering induced by the ECMAScript `SortCompare` wrapper, which maps a
`NaN` comparator result to `+0`: `a` may stay before `b` iff the comparator
value is `≤ 0`. -/
def jsSortLe (parse : String → Option Int) (a b : Incident) : Bool :=
  (sortCmpVal parse a b).getD 0 ≤ 0

/-- Stable insertion of a later element after every earlier element it does
not strictly precede. -/
def insertStable (le : α → α → Bool) (x : α) : List α → List α
  | [] => [x]
  | y :: ys => if le y x then y :: insertStable le x ys else x :: y :: ys

/-- `Array.prototype.sort` modelled as a stable sort with respect to the
comparator ordering (ES2019+ mandates stability). -/
def jsArraySort (le : α → α → Bool) (l : List α) : List α :=
  l.foldl (fun acc x => insertStable le x acc) []

/-- The candidate snapshot assembled by `refreshCache` after `Promise.allSettled`:
partition into the provider map and errors, sort within each provider, stamp
`updatedAt`. -/
def buildSnapshot (parse : String → Option Int) (now : Int)
    (rs : List (Feed × FetchOutcome)) : Snapshot :=
  let collected := collectResults rs
  { updatedAt := now
    providers := collected.1.map (fun pv =>
      { provider := pv.1, incidents := jsArraySort (jsSortLe parse) pv.2 })
    errors := collected.2 }

/-! ### Subscriber store and email validation -/

/-- A character admissible in the email regex classes `[^\s@]` (JS `\s`
restricted to its ASCII members plus NBSP; the feed of this route is ASCII). -/
def emailOkChar (c : Char) : Bool :=
  !(c == ' ' || c == '\t' || c == '\n' || c == '\r' ||
    c.val == 0x0b || c.val == 0x0c || c.val == 0xa0 || c == '@')

/-- After the first character of the domain, a `'.'` that still has at least
one character after it. -/
def innerDotAux : List Char → Bool
  | [] => false
  | [_] => false
  | c :: d :: rest => c == '.' || innerDotAux (d :: rest)

/-- The domain part matches `[^\s@]+\.[^\s@]+`: some `'.'` with at least one
character before it and one after it. -/
def domainHasInnerDot (d : List Char) : Bool :=
  match d with
  | [] => false
  | _ :: t => innerDotAux t

/-- `isValidEmail` from `server/index.js`: the regex
`^[^\s@]+@[^\s@]+\.[^\s@]+$` as an executable predicate. -/
def isValidEmail (s : String) : Bool :=
  let l := s.data
  (List.range l.length).any (fun i =>
    l.getD i ' ' == '@' &&
    !(l.take i).isEmpty && (l.take i).all emailOkChar &&
    (l.drop (i + 1)).all emailOkChar && domainHasInnerDot (l.drop (i + 1)))

/-- JS whitespace for `String.prototype.trim` (ASCII members plus NBSP). -/
def jsWs (c : Char) : Bool :=
  c == ' ' || c == '\t' || c == '\n' || c == '\r' ||
    c.val == 0x0b || c.val == 0x0c || c.val == 0xa0

/-- JS `String.prototype.trim`. -/
def jsTrim (s : String) : String :=
  ⟨((s.data.dropWhile jsWs).reverse.dropWhile jsWs).reverse⟩

/-- The route handlers' normalization `(req.body?.email || "").toLowerCase().trim()`. -/
def normalizeEmail (raw : Option String) : String :=
  jsTrim (jsToLower (pickStr raw ""))

/-- JS `Set.prototype.add` on an insertion-ordered duplicate-free list. -/
def jsSetAdd (store : List String) (e : String) : List String :=
  if store.contains e then store else store ++ [e]

/-- JS `Set.prototype.delete` on an insertion-ordered duplicate-free list. -/
def jsSetDelete (store : List String) (e : String) : List String :=
  store.erase e

/-- `POST /api/subscriptions/email`: returns the HTTP status code and the
subscriber set after the request (the in-memory set is authoritative; the
database mirror is best-effort and does not affect it). -/
def postSubscription (store : List String) (raw : Option String) :
    Nat × List String :=
  let email := normalizeEmail raw
  if !isValidEmail email then (400, store)
  else (201, jsSetAdd store email)

/-- `DELETE /api/subscriptions/email`. -/
def deleteSubscription (store : List String) (raw : Option String) :
    Nat × List String :=
  let email := normalizeEmail raw
  if !isValidEmail email then (400, store)
  else (200, jsSetDelete store email)

/-- `GET /api/subscriptions/email` returns `subscriberEmails.size`. -/
def subscriptionCount (store : List String) : Nat := store.length

/-! ### Single-flight cache state machine

The JS event loop is single-threaded: `refreshCache` runs synchronously from
its entry through the creation of the async body (which dispatches every
source's fetch) and the assignment of `refreshInFlight`, so no other trigger
can interleave with that prefix.  A trigger step therefore either attaches to
the existing in-flight handle or atomically starts a new body; a completion
step resolves the handle.  `fetchCalls` logs the feed ids whose fetch was
dispatched, `results` records resolved handles and their snapshots. -/

/-- `CACHE_TTL_MS` from `server/index.js`. -/
def CACHE_TTL_MS : Int := 5 * 60 * 1000

/-- The process state relevant to the refresh pipeline. -/
structure SysState where
  cache : Snapshot
  refreshInFlight : Option Nat
  nextHandle : Nat
  fetchCalls : List String
  results : List (Nat × Snapshot)
  deriving DecidableEq, Repr

/-- `refreshCache` entry: return the in-flight handle if one exists, else
start the body (dispatching one fetch per configured source) and store the
new handle in `refreshInFlight`. -/
def startRefresh (feeds : List Feed) (s : SysState) : Nat × SysState :=
  match s.refreshInFlight with
  | some h => (h, s)
  | none =>
      (s.nextHandle,
       { s with
         refreshInFlight := some s.nextHandle
         nextHandle := s.nextHandle + 1
         fetchCalls := s.fetchCalls ++ feeds.map (fun f => f.id) })

/-- A refresh trigger: the periodic timer, or a `getCache` read at time `now`. -/
inductive TriggerEvent where
  | timer
  | read (now : Int)
  deriving DecidableEq, Repr

/-- One trigger step.  The timer always calls `refreshCache`; a read calls it
only when the cache is stale, otherwise it returns the cache directly without
a handle. -/
def triggerStep (feeds : List Feed) (s : SysState) (e : TriggerEvent) :
    Option Nat × SysState :=
  match e with
  | .timer =>
      let hs := startRefresh feeds s
      (some hs.1, hs.2)
  | .read now =>
      if CACHE_TTL_MS < now - s.cache.updatedAt then
        let hs := startRefresh feeds s
        (some hs.1, hs.2)
      else (none, s)

/-- Run a list of trigger events with no completion in between (concurrent
triggers), collecting the handle each caller awaits. -/
def runTriggers (feeds : List Feed) (s : SysState) :
    List TriggerEvent → List (Option Nat) × SysState
  | [] => ([], s)
  | e :: es =>
      let r1 := triggerStep feeds s e
      let rest := runTriggers feeds r1.2 es
      (r1.1 :: rest.1, rest.2)

/-- Completion of the refresh body.  On success (`notifierOk = true`) the body
publishes the candidate snapshot, clears `refreshInFlight` and resolves the
handle.  When a notifier invocation throws (`notifierOk = false`) the body
rejects at the `await`: none of the statements after it run, so the cache is
not replaced and `refreshInFlight` is never cleared (the source has no
`try`/`finally` around the body). -/
def finishBody (s : SysState) (candidate : Snapshot) (notifierOk : Bool) : SysState :=
  match s.refreshInFlight, notifierOk with
  | some h, true =>
      { s with
        cache := candidate
        refreshInFlight := none
        results := s.results ++ [(h, candidate)] }
  | _, _ => s

/-! ### The source registry and concrete fixtures -/

/-- `FEEDS` from `server/index.js`. -/
def FEEDS : List Feed :=
  [{ id := "azure-status", provider := "Azure", name := "Azure Status",
     url := "https://rssfeed.azure.status.microsoft/en-gb/status/feed/" },
   { id := "azure-devops", provider := "Azure", name := "Azure DevOps Status",
     url := "https://status.dev.azure.com/_rss" },
   { id := "aws-status", provider := "AWS", name := "AWS Service Health Dashboard",
     url := "https://status.aws.amazon.com/rss/all.rss" },
   { id := "gcp-status", provider := "GCP", name := "Google Cloud Status",
     url := "https://status.cloud.google.com/en/feed.atom" }]

/-- A concrete stand-in for the external `Date.parse`: parses the one ISO
timestamp used in the examples and returns `NaN` (`none`) on everything else,
exactly as `Date.parse` does on garbage input. -/
def testParse (s : String) : Option Int :=
  if s = "2024-01-02T00:00:00.000Z" then some 1704153600000
  else if s = "2024-01-01T00:00:00.000Z" then some 1704067200000
  else none

/-! ### Specification-side definitions (for refinement comparisons only)

These are written from the spec's words, not from the source, and exist only
to state the corrected claims' counterexamples. -/

/-- Modelled from the spec: "two distinct directional-region tokens
co-occurring" — two different members of the directional token list both
occur in the text. -/
def claimTwoDistinctDirTokens (text : String) : Bool :=
  dirTokens.any (fun d1 => dirTokens.any (fun d2 =>
    d1 ≠ d2 && hasSub d1 text.data && hasSub d2 text.data))

/-- Modelled from the spec: the severity precedence exactly as the claim
words it — critical terms, then high terms "(failure, unable, major,
multi-region phrasing, dependent-service phrasing, or two distinct
directional-region tokens co-occurring)", then medium terms, then `low`. -/
def claimSeverity (title content : String) : String :=
  let text := classifierText title content
  if sevCriticalHit text then "critical"
  else if jsIncludes text "failure" || jsIncludes text "unable" ||
      jsIncludes text "major" || jsIncludes text "multiple regions" ||
      jsIncludes text "dependent service" || claimTwoDistinctDirTokens text then "high"
  else if sevMediumHit text then "medium"
  else "low"

/-- Modelled from the spec: the publish time used by the claimed ordering,
`none` when missing or unparsable. -/
def claimTime (parse : String → Option Int) (incident : Incident) : Option Int :=
  match incident.publishedAt with
  | none => none
  | some s => parse s

/-- Modelled from the spec: "time `ta` is at least as recent as `tb`" where a
missing/unparsable time counts as oldest (before every parsed time). -/
def claimTimeGe (ta tb : Option Int) : Bool :=
  match ta, tb with
  | _, none => true
  | none, some _ => false
  | some x, some y => y ≤ x

/-- Modelled from the spec: the sort order claimed for a provider's incidents
— severity rank ascending, ties by publish time descending where an
unparsable or missing publish time counts as oldest. -/
def claimSortLe (parse : String → Option Int) (a b : Incident) : Bool :=
  decide (getSeverityPriority a.severity < getSeverityPriority b.severity) ||
    (decide (getSeverityPriority a.severity = getSeverityPriority b.severity) &&
      claimTimeGe (claimTime parse a) (claimTime parse b))

/-- The well-behaved comparator value that agrees with the source comparator
whenever both publish times are missing or parsable (missing time = epoch 0). -/
def mergedTime (parse : String → Option Int) (incident : Incident) : Int :=
  (timeOf parse incident).getD 0

/-- Total-preorder comparator used to reason about the sort on inputs without
`NaN` times. -/
def goodLe (parse : String → Option Int) (a b : Incident) : Bool :=
  (if getSeverityPriority a.severity ≠ getSeverityPriority b.severity then
      getSeverityPriority a.severity - getSeverityPriority b.severity
    else mergedTime parse b - mergedTime parse a) ≤ 0

/-! ### Concrete fixtures for witnesses and counterexamples -/

/-- A minimal incident fixture. -/
def mkInc (id st sev : String) (pub : Option String) : Incident :=
  { id := id, provider := "P", source := "S", title := "T", summary := "",
    status := st, severity := sev, link := none, publishedAt := pub }

/-- A one-provider snapshot fixture. -/
def snapOf (t : Int) (l : List Incident) : Snapshot :=
  { updatedAt := t, providers := [{ provider := "P", incidents := l }], errors := [] }

/-- A feed fixture. -/
def exFeed : Feed :=
  { id := "aws-status", provider := "AWS", name := "AWS Service Health Dashboard",
    url := "https://status.aws.amazon.com/rss/all.rss" }

/-- Raw item whose `pubDate` does not parse (`Date.parse` yields `NaN`). -/
def rawUnparsable : RawItem :=
  { guid := some "id-a", title := some "Major failure alpha", pubDate := some "garbage" }

/-- Raw item with a parsable, newer `pubDate`. -/
def rawParsableNewer : RawItem :=
  { guid := some "id-b", title := some "Major failure beta",
    pubDate := some "2024-01-02T00:00:00.000Z" }

/-- Severity `critical` with the older timestamp. -/
def incCritOlder : Incident :=
  mkInc "c-old" "incident" "critical" (some "2024-01-01T00:00:00.000Z")

/-- Severity `high` with the newer timestamp. -/
def incHighNewer : Incident :=
  mkInc "h-new" "info" "high" (some "2024-01-02T00:00:00.000Z")

/-- A process state with a refresh in flight under handle 7. -/
def bugState : SysState :=
  { cache := snapOf 0 [mkInc "old" "info" "low" none]
    refreshInFlight := some 7
    nextHandle := 8
    fetchCalls := ["azure-status", "azure-devops", "aws-status", "gcp-status"]
    results := [] }

/-- The candidate snapshot of the failing cycle. -/
def bugCandidate : Snapshot := snapOf 1000 [mkInc "new" "incident" "critical" none]

/-- Closed-form description of the email notifier's `newIncidents` list: the
incidents of the candidate snapshot, in order, whose id is truthy, absent from
the previous map and absent from the dedup ledger. -/
def emailNewSpec (prev : Snapshot) (ledger : List String) (l : List Incident) :
    List Incident :=
  l.filter (fun i =>
    decide (i.id ≠ "") && (previousMapGet prev i.id).isNone && !(ledger.contains i.id))

/-- Closed-form description of the email notifier's `statusChanges` list: the
incidents of the candidate snapshot, in order, whose id is truthy and present
in the previous map with a different status, paired with the previous status. -/
def emailChangesSpec (prev : Snapshot) (l : List Incident) :
    List (Incident × String) :=
  l.filterMap (fun i =>
    if i.id = "" then none
    else
      match previousMapGet prev i.id with
      | none => none
      | some p => if p.status ≠ i.status then some (i, p.status) else none)

/-! ### Helper lemmas -/

theorem contains_iff_mem (l : List String) (a : String) :
    l.contains a = true ↔ a ∈ l := by
  simp [List.contains, List.elem_iff]

theorem pickStr_ne_empty (a : Option String) (d : String) (hd : d ≠ "") :
    pickStr a d ≠ "" := by
  cases a with
  | none => exact hd
  | some s =>
      by_cases hs : s = ""
      · simpa [pickStr, hs] using hd
      · simpa [pickStr, hs] using hs

theorem dash_concat_ne_empty (a b : String) : a ++ "-" ++ b ≠ "" := by
  intro h
  have h2 := congrArg String.data h
  simp [String.data_append] at h2

theorem mapItem_id_ne_empty (item : RawItem) (feed : Feed) :
    (mapItem item feed).id ≠ "" := by
  show pickStr _ _ ≠ ""
  exact pickStr_ne_empty _ _ (pickStr_ne_empty _ _ (dash_concat_ne_empty _ _))

theorem rememberIncident_cases (ledger : List String) (id : String)
    (hb : ledger.length ≤ MAX_SENT_IDS) :
    (id = "" ∨ id ∈ ledger → rememberIncident ledger id = ledger) ∧
    (id ≠ "" → id ∉ ledger → ledger.length < MAX_SENT_IDS →
        rememberIncident ledger id = ledger ++ [id]) ∧
    (id ≠ "" → id ∉ ledger → ledger.length = MAX_SENT_IDS →
        rememberIncident ledger id = ledger.tail ++ [id]) := by
  refine ⟨?_, ?_, ?_⟩
  · rintro (h | h)
    · simp [rememberIncident, h]
    · by_cases hid : id = ""
      · simp [rememberIncident, hid]
      · have : ¬ (MAX_SENT_IDS < ledger.length) := by omega
        simp [rememberIncident, hid, h, this]
  · intro hid hmem hlt
    have hlen : (ledger ++ [id]).length = ledger.length + 1 := by simp
    have : ¬ (MAX_SENT_IDS < (ledger ++ [id]).length) := by omega
    simp [rememberIncident, hid, hmem, this]
    intro hcon
    exact absurd hcon (by omega)
  · intro hid hmem hlen
    have hlen2 : (ledger ++ [id]).length = ledger.length + 1 := by simp
    have hlt : MAX_SENT_IDS < (ledger ++ [id]).length := by omega
    have hne : ledger ≠ [] := by
      intro hnil
      rw [hnil] at hlen
      simp [MAX_SENT_IDS] at hlen
    obtain ⟨x, t, rfl⟩ := List.exists_cons_of_ne_nil hne
    simp [rememberIncident, hid, hmem, hlt]
    simp at hlen
    omega

/-- C8: the dedup ledger never exceeds `MAX_SENT_IDS` entries; an insertion at
capacity evicts exactly the earliest-inserted id still present (the head of
the insertion-ordered set), an insertion below capacity appends, and no id is
removed in any other case (re-adding a present id and the falsy-id guard leave
the ledger unchanged). -/
theorem c8_ledger_bounded_fifo (ledger : List String) (id : String)
    (hb : ledger.length ≤ MAX_SENT_IDS) :
    (rememberIncident ledger id).length ≤ MAX_SENT_IDS ∧
    (id = "" ∨ id ∈ ledger → rememberIncident ledger id = ledger) ∧
    (id ≠ "" → id ∉ ledger → ledger.length < MAX_SENT_IDS →
        rememberIncident ledger id = ledger ++ [id]) ∧
    (id ≠ "" → id ∉ ledger → ledger.length = MAX_SENT_IDS →
        rememberIncident ledger id = ledger.tail ++ [id]) := by
  obtain ⟨h1, h2, h3⟩ := rememberIncident_cases ledger id hb
  refine ⟨?_, h1, h2, h3⟩
  by_cases hid : id = ""
  · rw [h1 (Or.inl hid)]; exact hb
  · by_cases hmem : id ∈ ledger
    · rw [h1 (Or.inr hmem)]; exact hb
    · rcases lt_or_eq_of_le hb with hlt | heq
      · rw [h2 hid hmem hlt]; simp; omega
      · rw [h3 hid hmem heq]
        have hne : ledger ≠ [] := by
          intro hnil
          rw [hnil] at heq
          simp [MAX_SENT_IDS] at heq
        obtain ⟨x, t, rfl⟩ := List.exists_cons_of_ne_nil hne
        simp at heq ⊢
        omega

/-- C8 witness: inserting a fresh id below capacity appends it. -/
theorem c8_ledger_bounded_fifo_witness :
    rememberIncident ["a", "b"] "c" = ["a", "b", "c"] :=
  (c8_ledger_bounded_fifo ["a", "b"] "c" (by decide)).2.2.1 (by decide) (by decide)
    (by decide)

theorem jsSetAdd_mem (store : List String) (e : String) : e ∈ jsSetAdd store e := by
  by_cases h : e ∈ store
  · simp [jsSetAdd, h]
  · simp [jsSetAdd, h]

theorem jsSetAdd_of_mem (store : List String) (e : String) (h : e ∈ store) :
    jsSetAdd store e = store := by
  simp [jsSetAdd, h]

theorem jsSetAdd_of_not_mem (store : List String) (e : String) (h : e ∉ store) :
    jsSetAdd store e = store ++ [e] := by
  simp [jsSetAdd, h]

theorem jsSetAdd_idem (store : List String) (e : String) :
    jsSetAdd (jsSetAdd store e) e = jsSetAdd store e :=
  jsSetAdd_of_mem _ _ (jsSetAdd_mem store e)

/-- C9: both subscription handlers validate the normalized address first and
reject invalid input with a 400 leaving the store untouched; a valid add
inserts into the set (so a second identical add is a no-op and the count grows
only when the address was absent), and a valid remove of an absent address
succeeds with the store unchanged. -/
theorem c9_subscriber_endpoints (store : List String) (raw : Option String) :
    (isValidEmail (normalizeEmail raw) = false →
        postSubscription store raw = (400, store) ∧
        deleteSubscription store raw = (400, store)) ∧
    (isValidEmail (normalizeEmail raw) = true →
        postSubscription store raw = (201, jsSetAdd store (normalizeEmail raw)) ∧
        (postSubscription (postSubscription store raw).2 raw).2 =
          (postSubscription store raw).2 ∧
        (normalizeEmail raw ∉ store → deleteSubscription store raw = (200, store)) ∧
        subscriptionCount (postSubscription store raw).2 =
          (if normalizeEmail raw ∈ store then subscriptionCount store
            else subscriptionCount store + 1)) := by
  constructor
  · intro hbad
    constructor
    · simp [postSubscription, hbad]
    · simp [deleteSubscription, hbad]
  · intro hok
    refine ⟨by simp [postSubscription, hok], ?_, ?_, ?_⟩
    · simp [postSubscription, hok, jsSetAdd_idem]
    · intro habs
      simp [deleteSubscription, hok, jsSetDelete, List.erase_of_not_mem habs]
    · by_cases hmem : normalizeEmail raw ∈ store
      · simp [postSubscription, hok, subscriptionCount, hmem, jsSetAdd_of_mem _ _ hmem]
      · simp [postSubscription, hok, subscriptionCount, hmem,
          jsSetAdd_of_not_mem _ _ hmem]

/-- C9 witness: the three concrete examples of the claim. -/
theorem c9_subscriber_endpoints_witness :
    postSubscription [] (some "a@b.com") =
      (201, jsSetAdd [] (normalizeEmail (some "a@b.com"))) ∧
    (postSubscription (postSubscription [] (some "a@b.com")).2 (some "a@b.com")).2 =
      (postSubscription [] (some "a@b.com")).2 ∧
    deleteSubscription [] (some "missing@x.com") = (200, []) ∧
    postSubscription [] (some "not-an-email") = (400, []) :=
  ⟨((c9_subscriber_endpoints [] (some "a@b.com")).2 (by decide)).1,
   ((c9_subscriber_endpoints [] (some "a@b.com")).2 (by decide)).2.1,
   ((c9_subscriber_endpoints [] (some "missing@x.com")).2 (by decide)).2.2.1
     (by decide),
   ((c9_subscriber_endpoints [] (some "not-an-email")).1 (by decide)).1⟩

/-- C5 amendment: the classifier is a total function whose status follows the
first-match precedence resolved-family > investigating > maintenance >
degraded-family > outage/incident-family > `info`, and whose severity follows
critical terms > the source's high terms (failure, unable, major, multiple
regions, dependent service, region co-occurring with impacted, or two
directional-region tokens — not necessarily distinct — separated by text
containing `and`) > medium terms > `low`; in particular
`classify("Service outage in East US", "") = (incident, critical)`. -/
theorem c5_classifier_precedence :
    (∀ title content, statusResolvedHit (classifierText title content) = true →
        normalizeStatus title content = "resolved") ∧
    (∀ title content, statusResolvedHit (classifierText title content) = false →
        jsIncludes (classifierText title content) "investigating" = true →
        normalizeStatus title content = "investigating") ∧
    (∀ title content, statusResolvedHit (classifierText title content) = false →
        jsIncludes (classifierText title content) "investigating" = false →
        jsIncludes (classifierText title content) "maintenance" = true →
        normalizeStatus title content = "maintenance") ∧
    (∀ title content, statusResolvedHit (classifierText title content) = false →
        jsIncludes (classifierText title content) "investigating" = false →
        jsIncludes (classifierText title content) "maintenance" = false →
        statusDegradedHit (classifierText title content) = true →
        normalizeStatus title content = "degraded") ∧
    (∀ title content, statusResolvedHit (classifierText title content) = false →
        jsIncludes (classifierText title content) "investigating" = false →
        jsIncludes (classifierText title content) "maintenance" = false →
        statusDegradedHit (classifierText title content) = false →
        statusIncidentHit (classifierText title content) = true →
        normalizeStatus title content = "incident") ∧
    (∀ title content, statusResolvedHit (classifierText title content) = false →
        jsIncludes (classifierText title content) "investigating" = false →
        jsIncludes (classifierText title content) "maintenance" = false →
        statusDegradedHit (classifierText title content) = false →
        statusIncidentHit (classifierText title content) = false →
        normalizeStatus title content = "info") ∧
    (∀ title content, sevCriticalHit (classifierText title content) = true →
        detectSeverity title content = "critical") ∧
    (∀ title content, sevCriticalHit (classifierText title content) = false →
        highTerms (classifierText title content) = true →
        detectSeverity title content = "high") ∧
    (∀ title content, sevCriticalHit (classifierText title content) = false →
        highTerms (classifierText title content) = false →
        sevMediumHit (classifierText title content) = true →
        detectSeverity title content = "medium") ∧
    (∀ title content, sevCriticalHit (classifierText title content) = false →
        highTerms (classifierText title content) = false →
        sevMediumHit (classifierText title content) = false →
        detectSeverity title content = "low") ∧
    classify "Service outage in East US" "" = ("incident", "critical") := by
  refine ⟨?_, ?_, ?_, ?_, ?_, ?_, ?_, ?_, ?_, ?_, by decide⟩
  all_goals intro title content
  · intro h1
    simp [normalizeStatus, h1]
  · intro h1 h2
    simp [normalizeStatus, h1, h2]
  · intro h1 h2 h3
    simp [normalizeStatus, h1, h2, h3]
  · intro h1 h2 h3 h4
    simp [normalizeStatus, h1, h2, h3, h4]
  · intro h1 h2 h3 h4 h5
    simp [normalizeStatus, h1, h2, h3, h4, h5]
  · intro h1 h2 h3 h4 h5
    simp [normalizeStatus, h1, h2, h3, h4, h5]
  · intro h1
    simp [detectSeverity, h1]
  · intro h1 h2
    simp [detectSeverity, h1, h2]
  · intro h1 h2 h3
    simp [detectSeverity, h1, h2, h3]
  · intro h1 h2 h3
    simp [detectSeverity, h1, h2, h3]

/-- C5 witness: the precedence theorem applied at a concrete input with its
hypotheses discharged by evaluation. -/
theorem c5_classifier_precedence_witness :
    normalizeStatus "Investigating login errors" "" = "investigating" :=
  c5_classifier_precedence.2.1 "Investigating login errors" "" (by decide) (by decide)

/-- C5 counterexample: on `title = "east and east"` the source's severity is
`high` (the regex `\b(dir).*and.*(dir)\b` accepts the *same* directional token
twice), while the claim's description — which demands two *distinct*
directional-region tokens — yields `low`.  So the claim's characterization of
the severity precedence is false on the code. -/
theorem c5_counterexample :
    detectSeverity "east and east" "" = "high" ∧
    claimSeverity "east and east" "" = "low" := by
  constructor
  · decide
  · decide

theorem mem_webhookNewIncidents (prev next : Snapshot) (ledger : List String)
    (i : Incident) :
    i ∈ webhookNewIncidents prev next ledger ↔
      i ∈ flattenIncidents next ∧ i.id ≠ "" ∧
        i.id ∉ (flattenIncidents prev).map (fun x => x.id) ∧ i.id ∉ ledger := by
  unfold webhookNewIncidents
  rw [List.mem_filter]
  simp [truthyStr]
  tauto

/-- C3: the webhook notifier marks an incident as new exactly when its truthy
id is absent from the previous snapshot's flattened ids and absent from the
dedup ledger; its action trace performs every ledger insertion before any
delivery attempt; and an id already present in the ledger is never in the new
list of a later cycle. -/
theorem c3_webhook_dedup :
    (∀ (prev next : Snapshot) (ledger : List String) (i : Incident),
        i ∈ flattenIncidents next → i.id ≠ "" →
        (i ∈ webhookNewIncidents prev next ledger ↔
          i.id ∉ (flattenIncidents prev).map (fun x => x.id) ∧ i.id ∉ ledger)) ∧
    (∀ (prev next : Snapshot) (ledger : List String) (discordUrl teamsUrl : String),
        ∃ ds, webhookTrace prev next ledger discordUrl teamsUrl =
            (webhookNewIncidents prev next ledger).map
              (fun i => WebhookAct.addLedger i.id) ++ ds ∧
          ∀ a ∈ ds, a.isDeliver = true) ∧
    (∀ (prev next : Snapshot) (ledger : List String) (id : String), id ∈ ledger →
        ∀ i ∈ webhookNewIncidents prev next ledger, i.id ≠ id) := by
  refine ⟨?_, ?_, ?_⟩
  · intro prev next ledger i hmem hid
    rw [mem_webhookNewIncidents]
    tauto
  · intro prev next ledger discordUrl teamsUrl
    by_cases hempty : (webhookNewIncidents prev next ledger).isEmpty = true
    · refine ⟨[], ?_, by simp⟩
      rw [List.isEmpty_iff] at hempty
      simp [webhookTrace, hempty]
    · have htr : webhookTrace prev next ledger discordUrl teamsUrl =
          (webhookNewIncidents prev next ledger).map
              (fun i => WebhookAct.addLedger i.id) ++
            ((if truthyStr discordUrl = true then
                [WebhookAct.deliver "discord" ("New incident updates:\n" ++
                  buildIncidentLines ((webhookNewIncidents prev next ledger).take 5))]
              else []) ++
             (if truthyStr teamsUrl = true then
                [WebhookAct.deliver "teams" ("New incident updates:\n" ++
                  buildIncidentLines ((webhookNewIncidents prev next ledger).take 5))]
              else [])) := by
        simp only [webhookTrace]
        rw [if_neg hempty]
      refine ⟨_, htr, ?_⟩
      intro a ha
      rcases List.mem_append.mp ha with h | h <;>
        split at h <;> simp_all [WebhookAct.isDeliver]
  · intro prev next ledger id hid i hmem heq
    have := (mem_webhookNewIncidents prev next ledger i).mp hmem
    rw [heq] at this
    exact this.2.2.2 hid

/-- C3 witness: incident `X` is new on first sight (empty previous snapshot,
empty ledger); after a cycle in which `X` was dropped from the snapshot, the
theorem applied with `X` in the ledger shows it is not classified new again. -/
theorem c3_webhook_dedup_witness :
    webhookNewIncidents (snapOf 0 []) (snapOf 1 [mkInc "X" "incident" "critical" none]) [] =
      [mkInc "X" "incident" "critical" none] ∧
    webhookLedgerAfter (snapOf 0 []) (snapOf 1 [mkInc "X" "incident" "critical" none]) [] =
      ["X"] ∧
    (mkInc "X" "incident" "critical" none ∈
        webhookNewIncidents (snapOf 2 []) (snapOf 3 [mkInc "X" "incident" "critical" none])
          ["X"] ↔
      (mkInc "X" "incident" "critical" none).id ∉
          (flattenIncidents (snapOf 2 [])).map (fun x => x.id) ∧
        (mkInc "X" "incident" "critical" none).id ∉ (["X"] : List String)) :=
  ⟨by decide, by decide,
   c3_webhook_dedup.1 (snapOf 2 []) (snapOf 3 [mkInc "X" "incident" "critical" none])
     ["X"] (mkInc "X" "incident" "critical" none) (by decide) (by decide)⟩

theorem emailDiff_foldl_spec (prev : Snapshot) (ledger : List String)
    (l : List Incident) :
    ∀ acc : List Incident × List (Incident × String),
      l.foldl (emailStep prev ledger) acc =
        (acc.1 ++ emailNewSpec prev ledger l, acc.2 ++ emailChangesSpec prev l) := by
  induction l with
  | nil => intro acc; simp [emailNewSpec, emailChangesSpec]
  | cons i t ih =>
      intro acc
      rw [List.foldl_cons, ih]
      by_cases hid : i.id = ""
      · simp [emailStep, emailNewSpec, emailChangesSpec, hid]
      · cases hprev : previousMapGet prev i.id with
        | none =>
            by_cases hled : i.id ∈ ledger
            · simp [emailStep, emailNewSpec, emailChangesSpec, hid, hprev, hled]
            · simp [emailStep, emailNewSpec, emailChangesSpec, hid, hprev, hled]
        | some p =>
            by_cases hst : p.status = i.status
            · simp [emailStep, emailNewSpec, emailChangesSpec, hid, hprev, hst]
            · simp [emailStep, emailNewSpec, emailChangesSpec, hid, hprev, hst]

theorem emailDiff_eq_spec (prev next : Snapshot) (ledger : List String) :
    emailDiff prev next ledger =
      (emailNewSpec prev ledger (flattenIncidents next),
       emailChangesSpec prev (flattenIncidents next)) := by
  rw [emailDiff, emailDiff_foldl_spec]
  simp

theorem mem_emailNew_iff (prev next : Snapshot) (ledger : List String) (i : Incident) :
    i ∈ (emailDiff prev next ledger).1 ↔
      i ∈ flattenIncidents next ∧ i.id ≠ "" ∧ previousMapGet prev i.id = none ∧
        i.id ∉ ledger := by
  rw [emailDiff_eq_spec]
  simp [emailNewSpec, List.mem_filter, Option.isNone_iff_eq_none]
  tauto

theorem mem_emailChanges_iff (prev next : Snapshot) (ledger : List String)
    (i : Incident) (ps : String) :
    (i, ps) ∈ (emailDiff prev next ledger).2 ↔
      i ∈ flattenIncidents next ∧ i.id ≠ "" ∧
        ∃ p, previousMapGet prev i.id = some p ∧ p.status ≠ i.status ∧
          ps = p.status := by
  rw [emailDiff_eq_spec]
  simp only [emailChangesSpec, List.mem_filterMap]
  constructor
  · rintro ⟨a, ha, hfa⟩
    by_cases hid : a.id = ""
    · simp [hid] at hfa
    · rw [if_neg hid] at hfa
      cases hprev : previousMapGet prev a.id with
      | none => rw [hprev] at hfa; simp at hfa
      | some p =>
          rw [hprev] at hfa
          by_cases hst : p.status = a.status
          · simp [hst] at hfa
          · simp [hst] at hfa
            obtain ⟨rfl, rfl⟩ := hfa
            exact ⟨ha, hid, p, hprev, hst, rfl⟩
  · rintro ⟨hmem, hid, p, hprev, hst, rfl⟩
    exact ⟨i, hmem, by simp [hid, hprev, hst]⟩

/-- C7: the email notifier puts an id-bearing incident of the candidate
snapshot in the "new" list exactly when its id is absent from the previous
map and from the webhook dedup ledger, in the "status changed" list exactly
when the id is present in the previous map with a different status (carrying
that previous status), never in both; each rendered category is capped at 5
entries, and a status-change line renders `previousStatus → newStatus`. -/
theorem c7_email_diff_categories :
    (∀ (prev next : Snapshot) (ledger : List String) (i : Incident),
        i ∈ (emailDiff prev next ledger).1 ↔
          i ∈ flattenIncidents next ∧ i.id ≠ "" ∧ previousMapGet prev i.id = none ∧
            i.id ∉ ledger) ∧
    (∀ (prev next : Snapshot) (ledger : List String) (i : Incident) (ps : String),
        (i, ps) ∈ (emailDiff prev next ledger).2 ↔
          i ∈ flattenIncidents next ∧ i.id ≠ "" ∧
            ∃ p, previousMapGet prev i.id = some p ∧ p.status ≠ i.status ∧
              ps = p.status) ∧
    (∀ (prev next : Snapshot) (ledger : List String) (i : Incident) (ps : String),
        ¬ (i ∈ (emailDiff prev next ledger).1 ∧ (i, ps) ∈ (emailDiff prev next ledger).2)) ∧
    (∀ newIncidents : List Incident, (emailRenderedNew newIncidents).length ≤ 5) ∧
    (∀ statusChanges : List (Incident × String),
        (emailRenderedChanges statusChanges).length ≤ 5) ∧
    emailChangeLine (mkInc "S" "resolved" "low" none, "investigating") =
      "• P: T (investigating → resolved) " := by
  refine ⟨mem_emailNew_iff, mem_emailChanges_iff, ?_, ?_, ?_, by decide⟩
  · rintro prev next ledger i ps ⟨hnew, hchg⟩
    have h1 := (mem_emailNew_iff prev next ledger i).mp hnew
    have h2 := (mem_emailChanges_iff prev next ledger i ps).mp hchg
    obtain ⟨p, hp, -, -⟩ := h2.2.2
    rw [h1.2.2.1] at hp
    exact Option.noConfusion hp
  · intro l
    exact (List.length_take 5 l).le.trans (by simp)
  · intro l
    exact (List.length_take 5 l).le.trans (by simp)

/-- C7 witness: a status transition `investigating → resolved` for id `S`
yields a status-change entry (with the previous status) and no new-incident
entry, by the category characterizations applied at concrete snapshots. -/
theorem c7_email_diff_categories_witness :
    ((mkInc "S" "resolved" "low" none, "investigating") ∈
        (emailDiff (snapOf 0 [mkInc "S" "investigating" "low" none])
          (snapOf 1 [mkInc "S" "resolved" "low" none]) []).2 ↔
      mkInc "S" "resolved" "low" none ∈
          flattenIncidents (snapOf 1 [mkInc "S" "resolved" "low" none]) ∧
        (mkInc "S" "resolved" "low" none).id ≠ "" ∧
        ∃ p, previousMapGet (snapOf 0 [mkInc "S" "investigating" "low" none])
              (mkInc "S" "resolved" "low" none).id = some p ∧
            p.status ≠ (mkInc "S" "resolved" "low" none).status ∧
            "investigating" = p.status) ∧
    (emailDiff (snapOf 0 [mkInc "S" "investigating" "low" none])
        (snapOf 1 [mkInc "S" "resolved" "low" none]) []).1 = [] ∧
    (emailDiff (snapOf 0 [mkInc "S" "investigating" "low" none])
        (snapOf 1 [mkInc "S" "resolved" "low" none]) []).2 =
      [(mkInc "S" "resolved" "low" none, "investigating")] :=
  ⟨c7_email_diff_categories.2.1 (snapOf 0 [mkInc "S" "investigating" "low" none])
      (snapOf 1 [mkInc "S" "resolved" "low" none]) []
      (mkInc "S" "resolved" "low" none) "investigating",
   by decide, by decide⟩

theorem mem_rememberIncident_self (ledger : List String) (id : String)
    (hid : id ≠ "") (hb : ledger.length ≤ MAX_SENT_IDS) :
    id ∈ rememberIncident ledger id := by
  obtain ⟨h1, h2, h3⟩ := rememberIncident_cases ledger id hb
  by_cases hmem : id ∈ ledger
  · rw [h1 (Or.inr hmem)]; exact hmem
  · rcases lt_or_eq_of_le hb with hlt | heq
    · rw [h2 hid hmem hlt]; simp
    · rw [h3 hid hmem heq]; simp

/-- C10: every incident built by `mapItem` carries a non-empty id (guid, else
link, else the `feedId-…` composite, which is non-empty even when every item
field is missing), so the id-truthiness guards of the webhook filter, the
email classifier, the dedup ledger and the persistence loop never skip it. -/
theorem c10_mapitem_id_always_present (item : RawItem) (feed : Feed) :
    (mapItem item feed).id ≠ "" ∧
    truthyStr (mapItem item feed).id = true ∧
    (∀ prevIds ledger : List String,
        (truthyStr (mapItem item feed).id && !(prevIds.contains (mapItem item feed).id) &&
            !(ledger.contains (mapItem item feed).id)) =
          (!(prevIds.contains (mapItem item feed).id) &&
            !(ledger.contains (mapItem item feed).id))) ∧
    (∀ ledger : List String, ledger.length ≤ MAX_SENT_IDS →
        (mapItem item feed).id ∈ rememberIncident ledger (mapItem item feed).id) ∧
    (∀ (prev next : Snapshot) (ledger : List String),
        mapItem item feed ∈ flattenIncidents next →
        previousMapGet prev (mapItem item feed).id = none →
        (mapItem item feed).id ∉ ledger →
        mapItem item feed ∈ (emailDiff prev next ledger).1) ∧
    (∀ snap : Snapshot, mapItem item feed ∈ flattenIncidents snap →
        mapItem item feed ∈ (flattenIncidents snap).filter (fun i => truthyStr i.id)) := by
  have hne := mapItem_id_ne_empty item feed
  have htr : truthyStr (mapItem item feed).id = true := by simp [truthyStr, hne]
  refine ⟨hne, htr, ?_, ?_, ?_, ?_⟩
  · intro prevIds ledger
    rw [htr]
    simp
  · intro ledger hb
    exact mem_rememberIncident_self ledger _ hne hb
  · intro prev next ledger hmem hprev hled
    exact (mem_emailNew_iff prev next ledger _).mpr ⟨hmem, hne, hprev, hled⟩
  · intro snap hmem
    exact List.mem_filter.mpr ⟨hmem, htr⟩

/-- C10 witness: the theorem applied to the fully-undefined raw item, whose
fallback id is the non-empty `"aws-status-undefined"`, and which the ledger
guard records. -/
theorem c10_mapitem_id_always_present_witness :
    (mapItem {} exFeed).id ≠ "" ∧
    (mapItem {} exFeed).id ∈ rememberIncident [] (mapItem {} exFeed).id :=
  ⟨(c10_mapitem_id_always_present {} exFeed).1,
   (c10_mapitem_id_always_present {} exFeed).2.2.2.1 [] (by decide)⟩


theorem collectStep_ok (pm : List (String × List Incident)) (errs : List FeedError)
    (f : Feed) (raws : List RawItem) :
    collectStep (pm, errs) (f, Except.ok raws) =
      (insertAppend pm f.provider (raws.map (fun item => mapItem item f)), errs) := rfl

theorem collectStep_error (pm : List (String × List Incident)) (errs : List FeedError)
    (f : Feed) (msg : Option String) :
    collectStep (pm, errs) (f, Except.error msg) =
      (pm, errs ++ [{ provider := f.provider, source := f.name,
                      message := pickStr msg "Failed to load feed" }]) := rfl

theorem insertAppend_lookup (pm : List (String × List Incident)) (k : String)
    (v : List Incident) (q : String) :
    (insertAppend pm k v).lookup q =
      if q = k then some (((pm.lookup k).getD []) ++ v) else pm.lookup q := by
  induction pm with
  | nil =>
      by_cases hq : q = k
      · subst hq; simp [insertAppend, List.lookup]
      · simp [insertAppend, List.lookup, beq_eq_false_iff_ne.mpr hq, if_neg hq]
  | cons hd rest ih =>
      obtain ⟨k0, v0⟩ := hd
      by_cases hk : k0 = k
      · subst hk
        have hins : insertAppend ((k0, v0) :: rest) k0 v = (k0, v0 ++ v) :: rest := by
          simp [insertAppend]
        rw [hins]
        by_cases hq : q = k0
        · subst hq; simp [List.lookup]
        · have hb : (q == k0) = false := beq_eq_false_iff_ne.mpr hq
          simp [List.lookup, hb, if_neg hq]
      · have hins : insertAppend ((k0, v0) :: rest) k v =
            (k0, v0) :: insertAppend rest k v := by
          simp [insertAppend, beq_eq_false_iff_ne.mpr hk]
        rw [hins]
        by_cases hq : q = k
        · subst hq
          have hq0 : (q == k0) = false :=
            beq_eq_false_iff_ne.mpr (fun h => hk (by rw [h]))
          have hk0 : (q == k0) = false := hq0
          simp [List.lookup, hq0, ih]
        · by_cases hq0 : q = k0
          · subst hq0
            simp [List.lookup, if_neg hq]
          · simp [List.lookup, beq_eq_false_iff_ne.mpr hq0, ih, if_neg hq]

theorem collect_foldl_lookup (rs : List (Feed × FetchOutcome)) :
    ∀ (pm : List (String × List Incident)) (errs : List FeedError) (p : String),
      ((rs.foldl collectStep (pm, errs)).1).lookup p =
        (match pm.lookup p with
         | some v => some (v ++ successItems rs p)
         | none => if anySuccess rs p then some (successItems rs p) else none) := by
  induction rs with
  | nil =>
      intro pm errs p
      simp [successItems, anySuccess]
      cases pm.lookup p <;> simp
  | cons fr t ih =>
      intro pm errs p
      obtain ⟨f, r⟩ := fr
      cases r with
      | ok raws =>
          rw [List.foldl_cons, collectStep_ok, ih]
          by_cases hp : p = f.provider
          · rw [hp, insertAppend_lookup, if_pos rfl]
            have hitems : successItems ((f, Except.ok raws) :: t) f.provider =
                (raws.map (fun item => mapItem item f)) ++ successItems t f.provider := by
              simp [successItems]
            have hsucc : anySuccess ((f, Except.ok raws) :: t) f.provider = true := by
              simp [anySuccess]
            rw [hitems, hsucc]
            cases pm.lookup f.provider <;> simp [List.append_assoc]
          · rw [insertAppend_lookup, if_neg hp]
            have hprov : (f.provider == p) = false :=
              beq_eq_false_iff_ne.mpr (fun h => hp (by rw [h]))
            have hitems : successItems ((f, Except.ok raws) :: t) p = successItems t p := by
              simp [successItems, Ne.symm hp]
            have hany : anySuccess ((f, Except.ok raws) :: t) p = anySuccess t p := by
              simp [anySuccess, Ne.symm hp]
            rw [hitems, hany]
      | error msg =>
          rw [List.foldl_cons, collectStep_error, ih]
          have hitems : successItems ((f, Except.error msg) :: t) p = successItems t p := by
            simp [successItems]
          have hany : anySuccess ((f, Except.error msg) :: t) p = anySuccess t p := by
            simp [anySuccess]
          rw [hitems, hany]

theorem collect_foldl_errors (rs : List (Feed × FetchOutcome)) :
    ∀ (pm : List (String × List Incident)) (errs : List FeedError),
      (rs.foldl collectStep (pm, errs)).2 =
        errs ++ rs.filterMap (fun fr =>
          match fr.2 with
          | Except.error msg =>
              some (FeedError.mk fr.1.provider fr.1.name (pickStr msg "Failed to load feed"))
          | Except.ok _ => none) := by
  induction rs with
  | nil => intro pm errs; simp
  | cons fr t ih =>
      intro pm errs
      obtain ⟨f, r⟩ := fr
      cases r with
      | ok raws =>
          rw [List.foldl_cons, collectStep_ok, ih]
          simp
      | error msg =>
          rw [List.foldl_cons, collectStep_error, ih]
          simp

theorem insertAppend_keys (pm : List (String × List Incident)) (k : String)
    (v : List Incident) :
    (insertAppend pm k v).map Prod.fst =
      if k ∈ pm.map Prod.fst then pm.map Prod.fst else pm.map Prod.fst ++ [k] := by
  induction pm with
  | nil => simp [insertAppend]
  | cons hd rest ih =>
      obtain ⟨k0, v0⟩ := hd
      by_cases hk : k0 = k
      · subst hk
        simp [insertAppend]
      · have hb : (k0 == k) = false := beq_eq_false_iff_ne.mpr hk
        by_cases hmem : k ∈ rest.map Prod.fst
        · simp [insertAppend, hb, ih, hmem, Ne.symm hk]
        · simp [insertAppend, hb, ih, hmem, Ne.symm hk]

theorem insertAppend_keys_nodup (pm : List (String × List Incident)) (k : String)
    (v : List Incident) (h : (pm.map Prod.fst).Nodup) :
    ((insertAppend pm k v).map Prod.fst).Nodup := by
  rw [insertAppend_keys]
  by_cases hmem : k ∈ pm.map Prod.fst
  · simpa [hmem] using h
  · simp [hmem, List.nodup_append, h]

theorem collect_keys_nodup (rs : List (Feed × FetchOutcome)) :
    ∀ (pm : List (String × List Incident)) (errs : List FeedError),
      ((pm.map Prod.fst).Nodup) →
      (((rs.foldl collectStep (pm, errs)).1).map Prod.fst).Nodup := by
  induction rs with
  | nil => intro pm errs h; exact h
  | cons fr t ih =>
      intro pm errs h
      obtain ⟨f, r⟩ := fr
      cases r with
      | ok raws =>
          rw [List.foldl_cons, collectStep_ok]
          exact ih _ _ (insertAppend_keys_nodup _ _ _ h)
      | error msg =>
          rw [List.foldl_cons, collectStep_error]
          exact ih _ _ h

theorem lookup_of_mem_nodup (pm : List (String × List Incident)) (p : String)
    (v : List Incident) (hnd : (pm.map Prod.fst).Nodup) (hm : (p, v) ∈ pm) :
    pm.lookup p = some v := by
  induction pm with
  | nil => cases hm
  | cons hd rest ih =>
      obtain ⟨k0, v0⟩ := hd
      rcases List.mem_cons.mp hm with heq | htail
      · obtain ⟨h1, h2⟩ := Prod.mk.inj heq.symm
        subst h1; subst h2
        simp [List.lookup]
      · have hk : p ≠ k0 := by
          intro hpk
          subst hpk
          have : p ∈ rest.map Prod.fst := List.mem_map.mpr ⟨(p, v), htail, rfl⟩
          simp at hnd
          exact hnd.1 v (by simpa using htail)
        simp only [List.lookup, beq_eq_false_iff_ne.mpr hk]
        exact ih (by simp at hnd; exact hnd.2) htail

theorem insertStable_perm (le : α → α → Bool) (x : α) (l : List α) :
    (insertStable le x l).Perm (x :: l) := by
  induction l with
  | nil => simp [insertStable]
  | cons y ys ih =>
      by_cases h : le y x
      · simp only [insertStable, h, if_true]
        exact (ih.cons y).trans (List.Perm.swap x y ys)
      · simp [insertStable, h]

theorem jsArraySort_foldl_perm (le : α → α → Bool) (l : List α) :
    ∀ acc : List α,
      (l.foldl (fun acc x => insertStable le x acc) acc).Perm (acc ++ l) := by
  induction l with
  | nil => intro acc; simp
  | cons x t ih =>
      intro acc
      rw [List.foldl_cons]
      refine (ih (insertStable le x acc)).trans ?_
      refine (List.Perm.append_right t (insertStable_perm le x acc)).trans ?_
      exact List.perm_middle.symm

theorem jsArraySort_perm (le : α → α → Bool) (l : List α) :
    (jsArraySort le l).Perm l := by
  have := jsArraySort_foldl_perm le l []
  simpa [jsArraySort] using this

/-- C4: the merge step is exact and per-source isolated — the provider map has
an entry for a provider exactly when some of its sources fetched successfully,
and that entry is exactly the concatenation, in source iteration order, of the
successful sources' mapped incidents; the error list is exactly one entry
(provider, source, defaulted message) per failed source; and every provider
group of the assembled snapshot is a permutation (the per-provider sort) of
those successfully fetched incidents. -/
theorem c4_merge_partition :
    (∀ (rs : List (Feed × FetchOutcome)) (p : String),
        (collectResults rs).1.lookup p =
          (if anySuccess rs p then some (successItems rs p) else none)) ∧
    (∀ rs : List (Feed × FetchOutcome),
        (collectResults rs).2 = rs.filterMap (fun fr =>
          match fr.2 with
          | Except.error msg =>
              some (FeedError.mk fr.1.provider fr.1.name
                (pickStr msg "Failed to load feed"))
          | Except.ok _ => none)) ∧
    (∀ (parse : String → Option Int) (now : Int) (rs : List (Feed × FetchOutcome)),
        ∀ g ∈ (buildSnapshot parse now rs).providers,
          g.incidents.Perm (successItems rs g.provider) ∧
            anySuccess rs g.provider = true) := by
  refine ⟨?_, ?_, ?_⟩
  · intro rs p
    rw [collectResults, collect_foldl_lookup]
    simp [List.lookup]
  · intro rs
    rw [collectResults, collect_foldl_errors]
    simp
  · intro parse now rs g hg
    simp only [buildSnapshot, List.mem_map] at hg
    obtain ⟨pv, hpv, rfl⟩ := hg
    have hnd : (((collectResults rs).1).map Prod.fst).Nodup :=
      collect_keys_nodup rs [] [] (by simp)
    have hlook : (collectResults rs).1.lookup pv.1 = some pv.2 :=
      lookup_of_mem_nodup _ _ _ hnd (by simpa using hpv)
    have hform : (collectResults rs).1.lookup pv.1 =
        (if anySuccess rs pv.1 then some (successItems rs pv.1) else none) := by
      rw [collectResults, collect_foldl_lookup]
      simp [List.lookup]
    rw [hlook] at hform
    by_cases hany : anySuccess rs pv.1 = true
    · rw [if_pos hany] at hform
      have hv : pv.2 = successItems rs pv.1 := Option.some.inj hform
      constructor
      · show (jsArraySort (jsSortLe parse) pv.2).Perm (successItems rs pv.1)
        rw [← hv]
        exact jsArraySort_perm _ _
      · exact hany
    · rw [if_neg hany] at hform
      exact Option.noConfusion hform

/-- C4 witness: one successful AWS source and one failed GCP source yield
exactly the AWS incidents (as a permutation of the single mapped item) and
exactly one defaulted GCP error entry. -/
theorem c4_merge_partition_witness :
    ((ProviderGroup.mk "AWS"
        [mapItem rawParsableNewer exFeed]).incidents.Perm
      (successItems
        [(exFeed, Except.ok [rawParsableNewer]),
         (Feed.mk "gcp-status" "GCP" "Google Cloud Status"
            "https://status.cloud.google.com/en/feed.atom", Except.error none)]
        (ProviderGroup.mk "AWS" [mapItem rawParsableNewer exFeed]).provider) ∧
      anySuccess
        [(exFeed, Except.ok [rawParsableNewer]),
         (Feed.mk "gcp-status" "GCP" "Google Cloud Status"
            "https://status.cloud.google.com/en/feed.atom", Except.error none)]
        (ProviderGroup.mk "AWS" [mapItem rawParsableNewer exFeed]).provider = true) ∧
    (collectResults
        [(exFeed, Except.ok [rawParsableNewer]),
         (Feed.mk "gcp-status" "GCP" "Google Cloud Status"
            "https://status.cloud.google.com/en/feed.atom", Except.error none)]).2 =
      [FeedError.mk "GCP" "Google Cloud Status" "Failed to load feed"] :=
  ⟨c4_merge_partition.2.2 testParse 5
      [(exFeed, Except.ok [rawParsableNewer]),
       (Feed.mk "gcp-status" "GCP" "Google Cloud Status"
          "https://status.cloud.google.com/en/feed.atom", Except.error none)]
      (ProviderGroup.mk "AWS" [mapItem rawParsableNewer exFeed]) (by decide),
   by decide⟩

theorem insertStable_pairwise (le : α → α → Bool)
    (htrans : ∀ a b c, le a b = true → le b c = true → le a c = true)
    (htot : ∀ a b, le a b = true ∨ le b a = true)
    (x : α) (l : List α) (hl : List.Pairwise (fun a b => le a b = true) l) :
    List.Pairwise (fun a b => le a b = true) (insertStable le x l) := by
  induction l with
  | nil => simp [insertStable]
  | cons y ys ih =>
      rcases List.pairwise_cons.mp hl with ⟨hy, hys⟩
      by_cases h : le y x = true
      · simp only [insertStable, h, if_true]
        refine List.pairwise_cons.mpr ⟨?_, ih hys⟩
        intro b hb
        rcases List.mem_cons.mp ((insertStable_perm le x ys).mem_iff.mp hb) with rfl | hbm
        · exact h
        · exact hy b hbm
      · have hxy : le x y = true := (htot x y).resolve_right h
        simp only [insertStable, h, if_false]
        refine List.pairwise_cons.mpr ⟨?_, hl⟩
        intro b hb
        rcases List.mem_cons.mp hb with rfl | hbm
        · exact hxy
        · exact htrans x y b hxy (hy b hbm)

theorem jsArraySort_foldl_pairwise (le : α → α → Bool)
    (htrans : ∀ a b c, le a b = true → le b c = true → le a c = true)
    (htot : ∀ a b, le a b = true ∨ le b a = true) (l : List α) :
    ∀ acc : List α, List.Pairwise (fun a b => le a b = true) acc →
      List.Pairwise (fun a b => le a b = true)
        (l.foldl (fun acc x => insertStable le x acc) acc) := by
  induction l with
  | nil => intro acc hacc; exact hacc
  | cons x t ih =>
      intro acc hacc
      rw [List.foldl_cons]
      exact ih _ (insertStable_pairwise le htrans htot x acc hacc)

theorem jsArraySort_pairwise (le : α → α → Bool)
    (htrans : ∀ a b c, le a b = true → le b c = true → le a c = true)
    (htot : ∀ a b, le a b = true ∨ le b a = true) (l : List α) :
    List.Pairwise (fun a b => le a b = true) (jsArraySort le l) :=
  jsArraySort_foldl_pairwise le htrans htot l [] (by simp)

theorem insertStable_congr (le le' : α → α → Bool) (x : α) (l : List α)
    (h : ∀ b ∈ l, le b x = le' b x) :
    insertStable le x l = insertStable le' x l := by
  induction l with
  | nil => rfl
  | cons y ys ih =>
      have hy : le y x = le' y x := h y (List.mem_cons_self y ys)
      by_cases hc : le y x = true
      · rw [show insertStable le x (y :: ys) = y :: insertStable le x ys from by
            simp [insertStable, hc],
          show insertStable le' x (y :: ys) = y :: insertStable le' x ys from by
            simp [insertStable, hy ▸ hc],
          ih (fun b hb => h b (List.mem_cons_of_mem y hb))]
      · rw [show insertStable le x (y :: ys) = x :: y :: ys from by
            simp [insertStable, hc],
          show insertStable le' x (y :: ys) = x :: y :: ys from by
            simp [insertStable, hy ▸ hc]]

theorem jsArraySort_foldl_congr (le le' : α → α → Bool) (S : List α)
    (hS : ∀ a ∈ S, ∀ b ∈ S, le a b = le' a b) :
    ∀ (l acc : List α), (∀ a ∈ l, a ∈ S) → (∀ a ∈ acc, a ∈ S) →
      l.foldl (fun acc x => insertStable le x acc) acc =
        l.foldl (fun acc x => insertStable le' x acc) acc := by
  intro l
  induction l with
  | nil => intro acc _ _; rfl
  | cons x t ih =>
      intro acc hl hacc
      rw [List.foldl_cons, List.foldl_cons]
      have hx : x ∈ S := hl x (List.mem_cons_self x t)
      have hins : insertStable le x acc = insertStable le' x acc :=
        insertStable_congr le le' x acc (fun b hb => hS b (hacc b hb) x hx)
      rw [hins]
      refine ih _ (fun a ha => hl a (List.mem_cons_of_mem x ha)) ?_
      intro a ha
      rcases List.mem_cons.mp ((insertStable_perm le' x acc).mem_iff.mp ha) with rfl | ham
      · exact hx
      · exact hacc a ham

theorem jsArraySort_congr (le le' : α → α → Bool) (l : List α)
    (h : ∀ a ∈ l, ∀ b ∈ l, le a b = le' a b) :
    jsArraySort le l = jsArraySort le' l :=
  jsArraySort_foldl_congr le le' l h l [] (fun a ha => ha) (by simp)

theorem goodLe_total (parse : String → Option Int) (a b : Incident) :
    goodLe parse a b = true ∨ goodLe parse b a = true := by
  by_cases h : getSeverityPriority a.severity = getSeverityPriority b.severity
  · simp [goodLe, h]
    omega
  · simp [goodLe, h, Ne.symm h]
    omega

theorem goodLe_trans (parse : String → Option Int) (a b c : Incident)
    (hab : goodLe parse a b = true) (hbc : goodLe parse b c = true) :
    goodLe parse a c = true := by
  by_cases h1 : getSeverityPriority a.severity = getSeverityPriority b.severity <;>
    by_cases h2 : getSeverityPriority b.severity = getSeverityPriority c.severity <;>
    by_cases h3 : getSeverityPriority a.severity = getSeverityPriority c.severity <;>
    simp [goodLe, h1, h2, h3, Ne.symm] at hab hbc ⊢ <;>
    omega

theorem jsSortLe_eq_goodLe (parse : String → Option Int) (a b : Incident)
    (ha : (timeOf parse a).isSome) (hb : (timeOf parse b).isSome) :
    jsSortLe parse a b = goodLe parse a b := by
  obtain ⟨ta, hta⟩ := Option.isSome_iff_exists.mp ha
  obtain ⟨tb, htb⟩ := Option.isSome_iff_exists.mp hb
  by_cases h : getSeverityPriority a.severity = getSeverityPriority b.severity
  · simp [jsSortLe, sortCmpVal, goodLe, mergedTime, hta, htb, h]
  · simp [jsSortLe, sortCmpVal, goodLe, mergedTime, hta, htb, h]

theorem goodLe_iff (parse : String → Option Int) (a b : Incident) :
    goodLe parse a b = true ↔
      (getSeverityPriority a.severity < getSeverityPriority b.severity ∨
        (getSeverityPriority a.severity = getSeverityPriority b.severity ∧
          mergedTime parse b ≤ mergedTime parse a)) := by
  by_cases h : getSeverityPriority a.severity = getSeverityPriority b.severity
  · simp [goodLe, h] <;> omega
  · simp [goodLe, h] <;> omega

/-- C6 amendment: when every publish time is missing or parsable, each
provider's incidents are sorted by severity rank ascending with ties broken by
publish time descending (a missing time counts as epoch `0`), the sorted list
being a permutation of the input; and in particular a `critical` incident with
the older timestamp sorts before a `high` incident with the newer timestamp.
(An *unparsable* time makes `Date.parse` return `NaN`, which the ECMAScript
`SortCompare` turns into `+0`, i.e. a tie — not "oldest"; see the
counterexample.) -/
theorem c6_sort_order :
    (∀ (parse : String → Option Int) (items : List Incident),
        (∀ i ∈ items, (timeOf parse i).isSome) →
        (jsArraySort (jsSortLe parse) items).Perm items ∧
        List.Pairwise (fun a b =>
          getSeverityPriority a.severity < getSeverityPriority b.severity ∨
            (getSeverityPriority a.severity = getSeverityPriority b.severity ∧
              mergedTime parse b ≤ mergedTime parse a))
          (jsArraySort (jsSortLe parse) items)) ∧
    jsArraySort (jsSortLe testParse) [incHighNewer, incCritOlder] =
      [incCritOlder, incHighNewer] := by
  constructor
  · intro parse items hgood
    refine ⟨jsArraySort_perm _ _, ?_⟩
    have hcongr : jsArraySort (jsSortLe parse) items = jsArraySort (goodLe parse) items :=
      jsArraySort_congr _ _ items (fun a ha b hb =>
        jsSortLe_eq_goodLe parse a b (hgood a ha) (hgood b hb))
    rw [hcongr]
    have hp := jsArraySort_pairwise (goodLe parse) (goodLe_trans parse)
      (goodLe_total parse) items
    exact hp.imp (fun hab => (goodLe_iff parse _ _).mp hab)
  · decide

/-- C6 witness: the amended theorem applied to the critical-older /
high-newer pair with all times parsable. -/
theorem c6_sort_order_witness :
    (jsArraySort (jsSortLe testParse) [incHighNewer, incCritOlder]).Perm
      [incHighNewer, incCritOlder] ∧
    List.Pairwise (fun a b =>
      getSeverityPriority a.severity < getSeverityPriority b.severity ∨
        (getSeverityPriority a.severity = getSeverityPriority b.severity ∧
          mergedTime testParse b ≤ mergedTime testParse a))
      (jsArraySort (jsSortLe testParse) [incHighNewer, incCritOlder]) :=
  c6_sort_order.1 testParse [incHighNewer, incCritOlder] (by decide)

/-- C6 counterexample: two same-severity incidents, the first with an
unparsable publish time, the second with a parsable newer one.  `Date.parse`
yields `NaN` for the first, the comparator result `NaN` is treated as `+0`
(a tie) by the sort, so the unparsable-time incident *keeps its position
before* the newer incident instead of sorting as oldest (which, with
descending time, would place it last).  The claimed ordering relation is
violated by the published snapshot's provider list. -/
theorem c6_counterexample :
    ((buildSnapshot testParse 0
        [(exFeed, Except.ok [rawUnparsable, rawParsableNewer])]).providers.map
      (fun g => g.incidents.map (fun i => i.id))) = [["id-a", "id-b"]] ∧
    ((buildSnapshot testParse 0
        [(exFeed, Except.ok [rawUnparsable, rawParsableNewer])]).providers.map
      (fun g => decide (List.Pairwise
        (fun a b => claimSortLe testParse a b = true) g.incidents))) = [false] := by
  constructor
  · decide
  · decide

theorem startRefresh_attached (feeds : List Feed) (s : SysState) (h : Nat)
    (hin : s.refreshInFlight = some h) : startRefresh feeds s = (h, s) := by
  simp [startRefresh, hin]

theorem runTriggers_attached (feeds : List Feed) (s : SysState) (h : Nat)
    (hin : s.refreshInFlight = some h) :
    ∀ evs : List TriggerEvent,
      (∀ e ∈ evs, ∀ now : Int, e = TriggerEvent.read now →
          CACHE_TTL_MS < now - s.cache.updatedAt) →
      runTriggers feeds s evs = (evs.map (fun _ => some h), s) := by
  intro evs
  induction evs with
  | nil => intro _; rfl
  | cons e es ih =>
      intro hstale
      have hstep : triggerStep feeds s e = (some h, s) := by
        cases e with
        | timer => simp [triggerStep, startRefresh_attached feeds s h hin]
        | read now =>
            have := hstale _ (List.mem_cons_self _ _) now rfl
            simp [triggerStep, this, startRefresh_attached feeds s h hin]
      show (let r1 := triggerStep feeds s e
            let rest := runTriggers feeds r1.2 es
            (r1.1 :: rest.1, rest.2)) = _
      rw [hstep]
      simp only []
      rw [ih (fun e he now heq => hstale e (List.mem_cons_of_mem _ he) now heq)]
      simp [List.map_cons]

/-- C1: from an idle state, any non-empty burst of concurrent triggers
(timer ticks and stale reads, with no completion in between) dispatches each
configured source's fetch exactly once, hands every caller the same in-flight
handle, and when that single refresh body completes all callers' shared handle
resolves to the same published snapshot. -/
theorem c1_single_flight (feeds : List Feed) (s : SysState)
    (evs : List TriggerEvent) (snap : Snapshot)
    (hidle : s.refreshInFlight = none)
    (hne : evs ≠ [])
    (hstale : ∀ e ∈ evs, ∀ now : Int, e = TriggerEvent.read now →
        CACHE_TTL_MS < now - s.cache.updatedAt)
    (hfresh : s.results.lookup s.nextHandle = none) :
    (runTriggers feeds s evs).1 = evs.map (fun _ => some s.nextHandle) ∧
    (runTriggers feeds s evs).2.fetchCalls =
      s.fetchCalls ++ feeds.map (fun f => f.id) ∧
    (runTriggers feeds s evs).2.refreshInFlight = some s.nextHandle ∧
    ((feeds.map (fun f => f.id)).Nodup → ∀ f ∈ feeds,
        (runTriggers feeds s evs).2.fetchCalls.count f.id =
          s.fetchCalls.count f.id + 1) ∧
    (finishBody (runTriggers feeds s evs).2 snap true).results.lookup s.nextHandle =
      some snap ∧
    (finishBody (runTriggers feeds s evs).2 snap true).cache = snap := by
  obtain ⟨e, es, rfl⟩ := List.exists_cons_of_ne_nil hne
  set s1 : SysState :=
    { s with
      refreshInFlight := some s.nextHandle
      nextHandle := s.nextHandle + 1
      fetchCalls := s.fetchCalls ++ feeds.map (fun f => f.id) } with hs1
  have hstep : triggerStep feeds s e = (some s.nextHandle, s1) := by
    cases e with
    | timer => simp [triggerStep, startRefresh, hidle, hs1]
    | read now =>
        have := hstale _ (List.mem_cons_self _ _) now rfl
        simp [triggerStep, this, startRefresh, hidle, hs1]
  have hcache : s1.cache = s.cache := rfl
  have hrest : runTriggers feeds s1 es = (es.map (fun _ => some s.nextHandle), s1) := by
    refine runTriggers_attached feeds s1 s.nextHandle rfl es ?_
    intro e2 he2 now heq
    rw [hcache]
    exact hstale e2 (List.mem_cons_of_mem _ he2) now heq
  have hrun : runTriggers feeds s (e :: es) =
      ((e :: es).map (fun _ => some s.nextHandle), s1) := by
    show (let r1 := triggerStep feeds s e
          let rest := runTriggers feeds r1.2 es
          (r1.1 :: rest.1, rest.2)) = _
    rw [hstep]
    simp only []
    rw [hrest]
    rfl
  rw [hrun]
  have hfin : finishBody s1 snap true =
      { s1 with
        cache := snap
        refreshInFlight := none
        results := s1.results ++ [(s.nextHandle, snap)] } := by
    simp [finishBody]
  refine ⟨rfl, rfl, rfl, ?_, ?_, ?_⟩
  · intro hnd f hf
    show (s.fetchCalls ++ feeds.map (fun g => g.id)).count f.id = _
    rw [List.count_append]
    have : (feeds.map (fun g => g.id)).count f.id = 1 :=
      List.count_eq_one_of_mem hnd (List.mem_map.mpr ⟨f, hf, rfl⟩)
    rw [this]
  · rw [hfin]
    show (s.results ++ [(s.nextHandle, snap)]).lookup s.nextHandle = some snap
    rw [List.lookup_append]
    simp [hfresh, List.lookup]
  · rw [hfin]

/-- C1 witness: five concurrent triggers (three stale reads and two timer
ticks) on an idle, stale state fetch each of the four configured sources once,
all share handle 0, and all observe the completed snapshot. -/
theorem c1_single_flight_witness :
    (runTriggers FEEDS (SysState.mk (snapOf 0 []) none 0 [] [])
        [TriggerEvent.read 600000, TriggerEvent.timer, TriggerEvent.read 700000,
         TriggerEvent.read 800000, TriggerEvent.timer]).1 =
      [some 0, some 0, some 0, some 0, some 0] ∧
    (runTriggers FEEDS (SysState.mk (snapOf 0 []) none 0 [] [])
        [TriggerEvent.read 600000, TriggerEvent.timer, TriggerEvent.read 700000,
         TriggerEvent.read 800000, TriggerEvent.timer]).2.fetchCalls =
      ["azure-status", "azure-devops", "aws-status", "gcp-status"] ∧
    (finishBody (runTriggers FEEDS (SysState.mk (snapOf 0 []) none 0 [] [])
        [TriggerEvent.read 600000, TriggerEvent.timer, TriggerEvent.read 700000,
         TriggerEvent.read 800000, TriggerEvent.timer]).2 bugCandidate
      true).cache = bugCandidate := by
  have h := c1_single_flight FEEDS (SysState.mk (snapOf 0 []) none 0 [] [])
    [TriggerEvent.read 600000, TriggerEvent.timer, TriggerEvent.read 700000,
     TriggerEvent.read 800000, TriggerEvent.timer] bugCandidate rfl (by decide)
    (by
      intro e he now heq
      fin_cases he <;> simp_all <;> (subst heq; decide))
    (by decide)
  exact ⟨by rw [h.1]; decide, by rw [h.2.1]; decide, h.2.2.2.2.2⟩

/-- C2 (code bug): `refreshCache` has no `try`/`finally` — when a notifier
invocation rejects (the unguarded `await notifyOnNewIncidentsByEmail`, whose
`sendMail` rejection propagates), the statements `cache = nextCache` and
`refreshInFlight = null` never execute: the candidate snapshot is not
published and the in-flight handle is never cleared, so every later trigger
re-attaches to the dead handle and no new refresh (no new fetches) can ever
start.  On notifier success the same cycle publishes and clears. -/
theorem c2_notifier_failure_bug :
    (finishBody bugState bugCandidate false).cache = bugState.cache ∧
    decide ((finishBody bugState bugCandidate false).cache = bugCandidate) = false ∧
    (finishBody bugState bugCandidate false).refreshInFlight = some 7 ∧
    triggerStep FEEDS (finishBody bugState bugCandidate false) TriggerEvent.timer =
      (some 7, finishBody bugState bugCandidate false) ∧
    (finishBody bugState bugCandidate false).fetchCalls = bugState.fetchCalls ∧
    (finishBody bugState bugCandidate true).cache = bugCandidate ∧
    (finishBody bugState bugCandidate true).refreshInFlight = none := by
  refine ⟨rfl, by decide, rfl, by decide, rfl, rfl, rfl⟩
